import Mathlib

/-! relaybaton client: shallow embedding and verified properties.

Embedding of `peer.go`, `client.go` and `config/server.go`.

* Go runtime panics (slice bounds, index out of range) are modelled by the
  error side of `Except GoPanic`.
* `uint16` values are natural numbers reduced modulo `65536` where the source
  converts or increments; bytes are `Fin 256`.
* Buffered channels are lists (FIFO order, head is the next element received).
* Effects on the outside world (WebSocket writes, local socket writes, handles
  closed, goroutines started) are recorded in log fields of the peer state.
-/

namespace Relaybaton

/-! ## Go runtime: bytes, slices, panics -/

/-- One byte. -/
abbrev Byte := Fin 256

/-- Runtime panics raised by Go slice and index expressions. -/
inductive GoPanic where
  | sliceBounds
  | indexRange
  deriving DecidableEq, Repr

/-- Go index expression on a slice: panics when the index is not below the length. -/
def goIndex {α : Type} (b : List α) (i : Nat) : Except GoPanic α :=
  match b.get? i with
  | some x => .ok x
  | none => .error .indexRange

/-- Go slice expression with signed bounds: panics unless `0 ≤ lo ≤ hi ≤ len`. -/
def goSlice {α : Type} (b : List α) (lo hi : Int) : Except GoPanic (List α) :=
  if 0 ≤ lo ∧ lo ≤ hi ∧ hi ≤ (b.length : Int) then
    .ok ((b.drop lo.toNat).take (hi - lo).toNat)
  else .error .sliceBounds

/-- Go slice expression with only an upper bound. -/
def goSliceTo {α : Type} (b : List α) (hi : Nat) : Except GoPanic (List α) :=
  goSlice b 0 hi

/-- Go slice expression with only a lower bound. -/
def goSliceFrom {α : Type} (b : List α) (lo : Nat) : Except GoPanic (List α) :=
  goSlice b lo b.length

/-- The function binary.BigEndian.Uint16: reads two bytes, panics on a shorter slice. -/
def bigEndianUint16 (b : List Byte) : Except GoPanic Nat :=
  match b with
  | b0 :: b1 :: _ => .ok (b0.val * 256 + b1.val)
  | _ => .error .indexRange

/-- The function uint16ToBytes of peer.go: big-endian encoding of a uint16. -/
def uint16ToBytes (n : Nat) : List Byte :=
  [⟨(n / 256) % 256, Nat.mod_lt _ (by decide)⟩, ⟨n % 256, Nat.mod_lt _ (by decide)⟩]

/-- Go conversion to uint16 of a signed integer: truncation to the low 16 bits. -/
def toUint16 (x : Int) : Nat := (x % 65536).toNat

/-! ## Session table -/

/-- A local TCP connection handle. -/
abbrev Conn := Nat

/-- Modelled from the spec: the type connectionPool and its methods (their source file is not
part of the sources at hand). Section 4.2 gives the operations set, get, delete (which also sets
close_sent), set_close_sent and is_close_sent; the invariants of section 3 say that a record
and a close_sent marker for one id never coexist. -/
structure connectionPool where
  conns : Nat → Option Conn
  closeSent : Nat → Bool

/-- Modelled from the spec: the empty table made by newConnectionPool. -/
def newConnectionPool : connectionPool :=
  { conns := fun _ => none, closeSent := fun _ => false }

namespace connectionPool

/-- Modelled from the spec: get(id), the record of a session if any. -/
def get (cp : connectionPool) (id : Nat) : Option Conn := cp.conns id

/-- Modelled from the spec: set(id, conn); the new record replaces a close_sent marker. -/
def set (cp : connectionPool) (id : Nat) (c : Conn) : connectionPool :=
  { conns := fun j => if j = id then some c else cp.conns j,
    closeSent := fun j => if j = id then false else cp.closeSent j }

/-- Modelled from the spec: set_close_sent(id). -/
def setCloseSent (cp : connectionPool) (id : Nat) : connectionPool :=
  { cp with closeSent := fun j => if j = id then true else cp.closeSent j }

/-- Modelled from the spec: delete(id) removes the record and also sets close_sent. -/
def delete (cp : connectionPool) (id : Nat) : connectionPool :=
  { conns := fun j => if j = id then none else cp.conns j,
    closeSent := fun j => if j = id then true else cp.closeSent j }

/-- Modelled from the spec: is_close_sent(id). -/
def isCloseSent (cp : connectionPool) (id : Nat) : Bool := cp.closeSent id

end connectionPool

/-! ## Frames and the peer state -/

/-- A prepared WebSocket message, by frame kind (section 4.1 of the specification). -/
inductive Frame where
  | close (session : Nat)
  | connect (atyp : Byte) (session : Nat) (dstAddr : List Byte) (dstPort : List Byte)
  | data (session : Nat) (payload : List Byte)
  deriving DecidableEq, Repr

/-- Something written to a local socket. -/
inductive LocalWrite where
  | payload (conn : Conn) (bytes : List Byte)
  | reply (conn : Conn) (rep atyp : Byte) (bndAddr bndPort : List Byte)
  | negotiationReply (conn : Conn) (method : Byte)
  deriving DecidableEq, Repr

/-- The struct peer of peer.go, with logs of its effects on the outside world. -/
structure peer where
  controlQueue : List Frame
  messageQueue : List Frame
  /-- number of buffered pending signals (the byte values are never inspected) -/
  hasMessage : Nat
  /-- buffered shutdown tokens -/
  close : List Nat
  /-- frames written to the WebSocket: the arguments of the calls of
  wsConn.WritePreparedMessage, oldest first; whether a call fails is up to the environment -/
  wsWritten : List Frame
  /-- number of calls of wsConn.Close -/
  wsClosed : Nat
  /-- number of calls of conf.DB.DB.Close -/
  dbClosed : Nat
  /-- number of runs of the session table sweep -/
  sweeps : Nat
  /-- writes to local sockets, oldest first -/
  localWritten : List LocalWrite
  /-- sessions for which a forwarder goroutine was started -/
  forwarders : List Nat
  /-- local connections closed by the acceptor -/
  localClosed : List Conn
  connPool : connectionPool

/-! ## Queue capacities of peer.init -/

/-- Binary operators of Go at precedence level 4 that occur in peer.init. -/
inductive GoOp where
  | add
  | xor
  deriving DecidableEq, Repr

/-- Meaning of a Go binary operator on untyped integer constants. -/
def GoOp.eval : GoOp → Nat → Nat → Nat
  | .add, a, b => a + b
  | .xor, a, b => Nat.xor a b

/-- Value of `x0 op1 x1 op2 x2 ...` where all operators share one precedence level:
Go groups from the left. -/
def goEvalChain (x0 : Nat) (rest : List (GoOp × Nat)) : Nat :=
  rest.foldl (fun acc t => t.1.eval acc t.2) x0

/-- Capacity of hasMessage: the source text is `2^32+2^16`. -/
def hasMessageCap : Nat := goEvalChain 2 [(.xor, 32), (.add, 2), (.xor, 16)]

/-- Capacity of controlQueue: the source text is `2^16`. -/
def controlQueueCap : Nat := goEvalChain 2 [(.xor, 16)]

/-- Capacity of messageQueue: the source text is `2^32`. -/
def messageQueueCap : Nat := goEvalChain 2 [(.xor, 32)]

/-- Capacity of the close channel. -/
def closeCap : Nat := 10

/-- The method peer.init: empty queues and an empty session table. -/
def peer.init : peer :=
  { connPool := newConnectionPool, controlQueue := [], messageQueue := [], hasMessage := 0,
    close := [], wsWritten := [], wsClosed := 0, dbClosed := 0, sweeps := 0,
    localWritten := [], forwarders := [], localClosed := [] }

/-! ## Constants of the SOCKS5 library -/

/-- The constant socks5.ATYPIPv4. -/
def ATYPIPv4 : Nat := 1

/-- The constant socks5.ATYPDomain. -/
def ATYPDomain : Nat := 3

/-- The constant socks5.ATYPIPv6. -/
def ATYPIPv6 : Nat := 4

/-- The constant socks5.RepSuccess. -/
def RepSuccess : Byte := 0

/-- The constant socks5.MethodNone. -/
def MethodNone : Byte := 0

/-- The constant socks5.CmdConnect. -/
def CmdConnect : Byte := 1

/-! ## The WebSocket writer of a session -/

/-- Modelled from the spec: webSocketWriter.writeClose (its source file is not part of the
sources at hand). It submits a CLOSE frame, prefix 0 and the session id as payload, to the
control queue and raises the pending signal. A sender that finds the queue full waits; it
never drops the frame, so the submission is an append. -/
def writeClose (p : peer) (session : Nat) : peer :=
  { p with controlQueue := p.controlQueue ++ [Frame.close session],
           hasMessage := p.hasMessage + 1 }

/-- A SOCKS5 request read from a local connection. -/
structure Socks5Request where
  cmd : Byte
  atyp : Byte
  dstAddr : List Byte
  dstPort : List Byte
  deriving DecidableEq, Repr

/-- Modelled from the spec: webSocketWriter.writeConnect (its source file is not part of the
sources at hand). It enqueues on the control queue a CONNECT frame carrying the address type,
the session id and the destination of the request, and raises the pending signal. The error
result, of which the spec says nothing, is given by the environment; a failing call enqueues
nothing. -/
def writeConnect (connectErr : Option String) (p : peer) (session : Nat) (req : Socks5Request) :
    peer × Option String :=
  match connectErr with
  | some e => (p, some e)
  | none =>
    ({ p with controlQueue :=
                p.controlQueue ++ [Frame.connect req.atyp session req.dstAddr req.dstPort],
              hasMessage := p.hasMessage + 1 }, none)

/-! ## peer.go -/

/-- How one pass through the body of a `for` loop with a `select` ends. -/
inductive LoopStep where
  | next
  | returned
  | blocked
  deriving DecidableEq, Repr

/-- The sweep loop of peer.Close: `for i := uint16(0); i < 65535; i++`, entered with the
loop variable equal to `i`. -/
def sweepFrom (i : Nat) (cp : connectionPool) : connectionPool :=
  if i < 65535 then
    sweepFrom ((i + 1) % 65536) (if (cp.get i).isSome then cp.delete i else cp)
  else cp
termination_by 65535 - i
decreasing_by
  simp_wf
  omega

/-- The method peer.Close. The error of wsConn.Close is only logged; the error of the
database handle, given by the environment, is the result. The four sends find the channel,
of capacity 10, empty at the first of them, so none of them waits. -/
def peer.Close (dbErr : Option String) (p : peer) : peer × Option String :=
  if p.close.length > 0 then (p, none)
  else
    let p1 := { p with close := p.close ++ [0] }
    let p2 := { p1 with close := p1.close ++ [1] }
    let p3 := { p2 with close := p2.close ++ [2] }
    let p4 := { p3 with wsClosed := p3.wsClosed + 1 }
    let p5 := { p4 with dbClosed := p4.dbClosed + 1 }
    let p6 := { p5 with close := p5.close ++ [1] }
    ({ p6 with connPool := sweepFrom 0 p6.connPool, sweeps := p6.sweeps + 1 }, dbErr)

/-- One pass through the loop body of peer.processQueue. `wsErr` tells whether
WritePreparedMessage fails, `dbErr` is the result of closing the database handle. The pass
is blocked when it waits on an empty hasMessage or on an empty messageQueue; the debug log
of the signal count has no effect on the state. -/
def peer.processQueueIter (wsErr : Bool) (dbErr : Option String) (p : peer) :
    peer × LoopStep :=
  match p.close with
  | _ :: rest => ({ p with close := rest }, .returned)
  | [] =>
    match p.hasMessage with
    | 0 => (p, .blocked)
    | n + 1 =>
      let p1 := { p with hasMessage := n }
      match p1.controlQueue with
      | c :: cs =>
        let p2 := { p1 with controlQueue := cs, wsWritten := p1.wsWritten ++ [c] }
        if wsErr then ((p2.Close dbErr).1, .returned) else (p2, .next)
      | [] =>
        match p1.messageQueue with
        | [] => (p1, .blocked)
        | m :: ms =>
          let p2 := { p1 with messageQueue := ms, wsWritten := p1.wsWritten ++ [m] }
          if wsErr then ((p2.Close dbErr).1, .returned) else (p2, .next)

/-- The method peer.receive. `writeErr` tells whether the write to the local socket fails. -/
def peer.receive (writeErr : Bool) (p : peer) (session : Nat) (data : List Byte) : peer :=
  match p.connPool.get session with
  | none =>
    if p.connPool.isCloseSent session then p
    else writeClose p session
  | some conn =>
    let p1 := { p with localWritten := p.localWritten ++ [LocalWrite.payload conn data] }
    if writeErr then
      writeClose { p1 with connPool := p1.connPool.delete session } session
    else p1

/-- The method peer.delete. -/
def peer.delete (p : peer) (session : Nat) : peer :=
  let p1 := if (p.connPool.get session).isSome then
      { p with connPool := p.connPool.delete session } else p
  { p1 with connPool := p1.connPool.setCloseSent session }

/-! ## client.go -/

/-- The method Client.handleWsReadClient on a received message. `writeErr` tells whether the
write to the local socket fails. The copy of the buffer has the length of the message, and
the release of the read lock has no counterpart in a sequential model. -/
def handleWsReadClient (writeErr : Bool) (p : peer) (content : List Byte) :
    Except GoPanic peer := do
  let b := content
  let pfx ← bigEndianUint16 (← goSliceTo b 2)
  if p.connPool.isCloseSent pfx then
    return p
  if pfx = 0 then
    let session ← bigEndianUint16 (← goSliceFrom b 2)
    return p.delete session
  else if pfx = ATYPIPv4 ∨ pfx = ATYPDomain ∨ pfx = ATYPIPv6 then
    let atyp ← goIndex b 1
    let session ← bigEndianUint16 (← goSlice b 2 4)
    let rep ← goIndex b 4
    let bndPort ← goSlice b 5 7
    let bndAddr ← goSliceFrom b 7
    match p.connPool.get session with
    | none => return writeClose p session
    | some conn =>
      let p1 := { p with localWritten :=
                    p.localWritten ++ [LocalWrite.reply conn rep atyp bndAddr bndPort] }
      let p2 := if writeErr then
          writeClose { p1 with connPool := p1.connPool.delete session } session
        else p1
      let p3 := if rep ≠ RepSuccess then
          { p2 with connPool := p2.connPool.delete session }
        else p2
      return p3
  else
    let session := pfx
    return p.receive writeErr session (← goSliceFrom b 2)

/-- What the SOCKS5 library and the local connection give to serveSocks5: the negotiation
request read (its methods, or a read error), the result of writing the negotiation reply, the
request read, and the result of writeConnect. -/
structure Socks5Env where
  negotiationRequest : Except String (List Byte)
  negotiationReplyErr : Option String
  request : Except String Socks5Request
  connectErr : Option String

/-- The function serveSocks5 for the local connection `conn` and the writer of `session`. -/
def serveSocks5 (env : Socks5Env) (p : peer) (conn : Conn) (session : Nat) :
    peer × Option String :=
  match env.negotiationRequest with
  | .error e => (p, some e)
  | .ok methods =>
    let got := methods.foldl (fun g m => if m = MethodNone then true else g) false
    if !got then (p, some "method not supported")
    else
      let p1 := { p with localWritten :=
                    p.localWritten ++ [LocalWrite.negotiationReply conn MethodNone] }
      match env.negotiationReplyErr with
      | some e => (p1, some e)
      | none =>
        match env.request with
        | .error e => (p1, some e)
        | .ok request =>
          if request.cmd ≠ CmdConnect then (p1, some "command not supported")
          else writeConnect env.connectErr p1 session request

/-- A connection returned by Accept: its handle and the port of its remote TCP address. -/
structure Accepted where
  conn : Conn
  remotePort : Int

/-- One pass through the loop body of Client.listenSocks. -/
def listenSocksIter (accept : Except String Accepted) (env : Socks5Env)
    (dbErr : Option String) (p : peer) : peer × LoopStep :=
  match p.close with
  | _ :: rest => ({ p with close := rest }, .returned)
  | [] =>
    match accept with
    | .error _ => ((p.Close dbErr).1, .returned)
    | .ok s5conn =>
      let port := toUint16 s5conn.remotePort
      match serveSocks5 env p s5conn.conn port with
      | (p1, some _) => ({ p1 with localClosed := p1.localClosed ++ [s5conn.conn] }, .next)
      | (p1, none) =>
        ({ p1 with connPool := p1.connPool.set port s5conn.conn,
                   forwarders := p1.forwarders ++ [port] }, .next)

/-- One answer of a DoH response; the DATA string is a sequence of bytes. -/
structure DoHAnswer where
  Data : List Byte
  deriving DecidableEq, Repr

/-- The function getESNIKey. `query` is the result of the DoH TXT query, `decode` stands for
base64.StdEncoding.DecodeString and `parseKeys` for tls.ParseESNIKeys. -/
def getESNIKey {K : Type} (query : Except String (List DoHAnswer))
    (decode : List Byte → Except String (List Byte))
    (parseKeys : List Byte → Except String K) : Except GoPanic (Except String K) :=
  match query with
  | .error e => .ok (.error e)
  | .ok answer => do
    let first ← goIndex answer 0
    let rawRecord := first.Data
    let quoted ← goSlice rawRecord 1 ((rawRecord.length : Int) - 1)
    match decode quoted with
    | .error e => return (.error e)
    | .ok esniRecord =>
      match parseKeys esniRecord with
      | .error e => return (.error e)
      | .ok esniKey => return (.ok esniKey)

/-! ## config/server.go -/

/-- The struct serverTOML. -/
structure serverTOML where
  Port : Int
  Pretend : String
  Secure : Bool
  CertFile : String
  KeyFile : String

/-- The struct serverGo, over the types of parsed URLs and of file descriptions. -/
structure serverGo (U F : Type) where
  Port : Nat
  Pretend : Option U
  Secure : Bool
  CertFile : Option F
  KeyFile : Option F

/-- The method serverTOML.Init. `urlParse` stands for url.Parse and `osStat` for os.Stat. -/
def serverTOML.Init {U F : Type} (urlParse : String → Except String U)
    (osStat : String → Except String F) (st : serverTOML) : Except String (serverGo U F) :=
  let sg : serverGo U F :=
    { Port := toUint16 st.Port, Pretend := none, Secure := st.Secure,
      CertFile := none, KeyFile := none }
  match urlParse st.Pretend with
  | .error e => .error e
  | .ok u =>
    let sg := { sg with Pretend := some u }
    if sg.Secure then
      match osStat st.CertFile with
      | .error e => .error e
      | .ok cert =>
        let sg := { sg with CertFile := some cert }
        match osStat st.KeyFile with
        | .error e => .error e
        | .ok key => .ok { sg with KeyFile := some key }
    else .ok sg

/-! ## Shutdown tokens and the three long-running tasks -/

/-- The long-running tasks that receive from the close channel at the head of their loop:
the loop of Client.Run, Client.listenSocks and peer.processQueue. -/
inductive Task where
  | reader
  | acceptor
  | scheduler
  deriving DecidableEq, Repr

/-- A peer together with the tasks that have left their loop. -/
structure Sys where
  p : peer
  exited : Task → Bool

/-- Number of long-running tasks still in their loop. -/
def Sys.live (s : Sys) : Nat :=
  ([Task.reader, Task.acceptor, Task.scheduler].filter (fun t => !s.exited t)).length

/-- What can happen to the close channel: a call of Close, or a task reaching the head of
its loop, where it takes a token if there is one and leaves its loop. -/
inductive Event where
  | callClose (dbErr : Option String)
  | loopHead (t : Task)

/-- Effect of one event. A task at the head of its loop with no token available goes on
with its default branch, which does not touch the close channel. -/
def Sys.step (s : Sys) : Event → Sys
  | .callClose dbErr => { s with p := (s.p.Close dbErr).1 }
  | .loopHead t =>
    if s.exited t then s
    else
      match s.p.close with
      | [] => s
      | _ :: rest =>
        { p := { s.p with close := rest },
          exited := fun u => if u = t then true else s.exited u }

/-- Effect of a sequence of events. -/
def Sys.run (s : Sys) (evs : List Event) : Sys := evs.foldl Sys.step s

/-- The close channel is empty, or it holds more tokens than there are tasks that may still
take one. -/
def Sys.closeInv (s : Sys) : Prop := s.p.close = [] ∨ s.live < s.p.close.length

/-! ## Concrete states used in examples -/

/-- A running peer with two pending control frames and one pending data frame. -/
def busyPeer : peer :=
  { peer.init with controlQueue := [Frame.close 4660, Frame.close 22136],
                   messageQueue := [Frame.data 4661 [1]],
                   hasMessage := 3 }

/-- The same peer after a call of Close: four shutdown tokens are buffered. -/
def closingBusyPeer : peer := (busyPeer.Close none).1

/-- The busy peer after a call of Close and after the reader and the acceptor have each
taken a token: two tokens are left for the scheduler to find. -/
def drainingBusyPeer : peer :=
  { busyPeer with close := [2, 1], wsClosed := 1, dbClosed := 1, sweeps := 1 }

/-- A running peer whose table holds one session, with the highest id. -/
def topSessionPeer : peer :=
  { peer.init with connPool := newConnectionPool.set 65535 7 }

/-- A system just after peer.init: nothing closed, all three tasks in their loop. -/
def freshSys : Sys := { p := peer.init, exited := fun _ => false }

/-- A run in which Close is called three more times while the three tasks leave their loops. -/
def shutdownEvents : List Event :=
  [Event.loopHead Task.scheduler, Event.callClose none, Event.loopHead Task.reader,
   Event.loopHead Task.scheduler, Event.loopHead Task.acceptor, Event.callClose (some "db"),
   Event.loopHead Task.reader, Event.callClose none]

/-- A running peer whose table has only a close_sent marker, for session 4660. -/
def closedSessionPeer : peer :=
  { peer.init with connPool := newConnectionPool.setCloseSent 4660 }

/-- A running peer whose table holds session 4660. -/
def activeSessionPeer : peer :=
  { peer.init with connPool := newConnectionPool.set 4660 7 }

/-- A local client that offers method NONE and asks to CONNECT to 93.184.216.34:80. -/
def goodSocks5Env : Socks5Env :=
  { negotiationRequest := .ok [MethodNone],
    negotiationReplyErr := none,
    request := .ok { cmd := CmdConnect, atyp := 1, dstAddr := [93, 184, 216, 34],
                     dstPort := [0, 80] },
    connectErr := none }

/-- A server configuration with a plain listener on the given port. -/
def plainServerTOML (port : Int) : serverTOML :=
  { Port := port, Pretend := "https://example.com", Secure := false, CertFile := "",
    KeyFile := "" }

/-- A URL parser and a file system that accept everything. -/
def acceptAll (x : String) : Except String String := .ok x

/-! # Theorems -/

/-! ## Close and the sweep -/

theorem sweepFrom_unfold (i : Nat) (cp : connectionPool) :
    sweepFrom i cp =
      if i < 65535 then
        sweepFrom ((i + 1) % 65536) (if (cp.get i).isSome then cp.delete i else cp)
      else cp := by
  rw [sweepFrom]

theorem sweepFrom_of_ge (i : Nat) (cp : connectionPool) (h : 65535 ≤ i) :
    sweepFrom i cp = cp := by
  rw [sweepFrom_unfold, if_neg (by omega)]

theorem sweepFrom_of_lt (i : Nat) (cp : connectionPool) (h : i < 65535) :
    sweepFrom i cp = sweepFrom (i + 1) (if (cp.get i).isSome then cp.delete i else cp) := by
  rw [sweepFrom_unfold, if_pos h, Nat.mod_eq_of_lt (by omega)]

/-- One step of the sweep leaves the records of all other ids as they are. -/
theorem sweep_body_get_of_ne (cp : connectionPool) (i j : Nat) (h : j ≠ i) :
    (if (cp.get i).isSome then cp.delete i else cp).get j = cp.get j := by
  split
  · simp [connectionPool.get, connectionPool.delete, h]
  · rfl

/-- One step of the sweep removes the record of the id it visits. -/
theorem sweep_body_get_self (cp : connectionPool) (i : Nat) :
    (if (cp.get i).isSome then cp.delete i else cp).get i = none := by
  split
  · simp [connectionPool.get, connectionPool.delete]
  · rename_i h
    simpa using h

/-- The sweep started at `i` does not touch ids below `i` or from 65535 on. -/
theorem sweepFrom_get_outside (n : Nat) :
    ∀ (i : Nat) (cp : connectionPool) (j : Nat), 65535 - i = n → (j < i ∨ 65535 ≤ j) →
      (sweepFrom i cp).get j = cp.get j := by
  induction n with
  | zero =>
    intro i cp j hn _
    rw [sweepFrom_of_ge i cp (by omega)]
  | succ n ih =>
    intro i cp j hn hj
    rw [sweepFrom_of_lt i cp (by omega), ih (i + 1) _ j (by omega) (by omega)]
    exact sweep_body_get_of_ne cp i j (by omega)

/-- The sweep started at `i` removes every record with an id from `i` up to 65534. -/
theorem sweepFrom_get_inside (n : Nat) :
    ∀ (i : Nat) (cp : connectionPool) (j : Nat), 65535 - i = n → i ≤ j → j < 65535 →
      (sweepFrom i cp).get j = none := by
  induction n with
  | zero =>
    intro i cp j hn h1 h2
    omega
  | succ n ih =>
    intro i cp j hn h1 h2
    rw [sweepFrom_of_lt i cp (by omega)]
    by_cases hij : j = i
    · subst hij
      rw [sweepFrom_get_outside n (j + 1) _ j (by omega) (by omega)]
      exact sweep_body_get_self cp j
    · exact ih (i + 1) _ j (by omega) (by omega) h2

/-- A call of Close on a peer with a token in the close channel changes nothing. -/
theorem Close_of_closing (d : Option String) (p : peer) (h : p.close ≠ []) :
    p.Close d = (p, none) := by
  have : 0 < p.close.length := List.length_pos.mpr h
  simp [peer.Close, this]

/-- What a call of Close does on a peer with an empty close channel. -/
theorem Close_of_running (d : Option String) (p : peer) (h : p.close = []) :
    p.Close d =
      ({ p with close := [0, 1, 2, 1], wsClosed := p.wsClosed + 1, dbClosed := p.dbClosed + 1,
                connPool := sweepFrom 0 p.connPool, sweeps := p.sweeps + 1 }, d) := by
  simp [peer.Close, h]

/-- The state after a call of Close on a peer with an empty close channel. -/
theorem Close_fst_of_running (d : Option String) (p : peer) (h : p.close = []) :
    (p.Close d).1 =
      { p with close := [0, 1, 2, 1], wsClosed := p.wsClosed + 1, dbClosed := p.dbClosed + 1,
               connPool := sweepFrom 0 p.connPool, sweeps := p.sweeps + 1 } := by
  rw [Close_of_running d p h]

/-- Close never touches the queues, the pending signal or the log of WebSocket writes. -/
theorem Close_queues (d : Option String) (p : peer) :
    (p.Close d).1.controlQueue = p.controlQueue ∧ (p.Close d).1.messageQueue = p.messageQueue ∧
    (p.Close d).1.wsWritten = p.wsWritten ∧ (p.Close d).1.hasMessage = p.hasMessage := by
  by_cases h : p.close = []
  · rw [Close_fst_of_running d p h]
    exact ⟨rfl, rfl, rfl, rfl⟩
  · rw [Close_of_closing d p h]
    exact ⟨rfl, rfl, rfl, rfl⟩

/-- After Close on a running peer no session with an id below 65535 is left. -/
theorem Close_drains_below_65535 (d : Option String) (p : peer) (h : p.close = [])
    (id : Nat) (hid : id < 65535) : (p.Close d).1.connPool.get id = none := by
  rw [Close_fst_of_running d p h]
  exact sweepFrom_get_inside 65535 0 p.connPool id rfl (Nat.zero_le _) hid

/-- C4, at the failing input: Close runs on a peer that is not closing and whose table holds
a session with id 65535; the sweep stops before that id and the record is still in the table
afterwards, although every id from 1 to 65535 should have been drained. -/
theorem Close_leaves_session_65535 :
    topSessionPeer.close = [] ∧ topSessionPeer.connPool.get 65535 = some 7 ∧
    (topSessionPeer.Close none).1.connPool.get 65535 = some 7 := by
  refine ⟨rfl, ?_, ?_⟩
  · simp [topSessionPeer, connectionPool.get, connectionPool.set]
  · rw [Close_fst_of_running none topSessionPeer rfl]
    show (sweepFrom 0 topSessionPeer.connPool).get 65535 = some 7
    rw [sweepFrom_get_outside 65535 0 _ 65535 rfl (Or.inr (le_refl _))]
    simp [topSessionPeer, connectionPool.get, connectionPool.set]

/-! ## Idempotence of Close -/

/-- At most three tasks are in their loop. -/
theorem Sys.live_le (s : Sys) : s.live ≤ 3 := by
  unfold Sys.live
  exact le_trans (List.length_filter_le _ _) (by simp)

/-- A task leaving its loop lowers the number of tasks in their loop by one. -/
theorem Sys.live_exit (s : Sys) (t : Task) (q : peer) (h : s.exited t = false) :
    Sys.live { p := q, exited := fun u => if u = t then true else s.exited u } + 1 = s.live := by
  cases t <;> cases h1 : s.exited Task.reader <;> cases h2 : s.exited Task.acceptor <;>
    cases h3 : s.exited Task.scheduler <;> simp_all [Sys.live]

/-- While the close channel holds more tokens than there are tasks in their loop, an event
changes nothing in the peer except that it may take a token from the close channel, and
the channel keeps more tokens than there are tasks in their loop. -/
theorem Sys.step_closing (s : Sys) (e : Event) (h : s.live < s.p.close.length) :
    (s.step e).live < (s.step e).p.close.length ∧
    (s.step e).p = { s.p with close := (s.step e).p.close } ∧
    (s.step e).p.close <:+ s.p.close := by
  have hne : s.p.close ≠ [] := by
    intro h0
    rw [h0] at h
    exact Nat.not_lt_zero _ h
  cases e with
  | callClose d =>
    have hc : (s.step (Event.callClose d)) = { s with p := s.p } := by
      simp only [Sys.step]
      rw [Close_of_closing d s.p hne]
    rw [hc]
    exact ⟨h, rfl, List.suffix_refl _⟩
  | loopHead t =>
    cases hex : s.exited t with
    | true =>
      have hc : s.step (Event.loopHead t) = s := by simp [Sys.step, hex]
      rw [hc]
      exact ⟨h, rfl, List.suffix_refl _⟩
    | false =>
      cases hcl : s.p.close with
      | nil => exact absurd hcl hne
      | cons tok rest =>
        have hc : s.step (Event.loopHead t) =
            { p := { s.p with close := rest },
              exited := fun u => if u = t then true else s.exited u } := by
          simp [Sys.step, hex, hcl]
        rw [hc]
        have hl := Sys.live_exit s t { s.p with close := rest } hex
        rw [hcl] at h
        simp only [List.length_cons] at h
        refine ⟨?_, rfl, List.suffix_cons tok rest⟩
        show _ < rest.length
        omega

/-- The same, for a sequence of events. -/
theorem Sys.run_closing (evs : List Event) :
    ∀ s : Sys, s.live < s.p.close.length →
      (s.run evs).live < (s.run evs).p.close.length ∧
      (s.run evs).p = { s.p with close := (s.run evs).p.close } ∧
      (s.run evs).p.close <:+ s.p.close := by
  induction evs with
  | nil =>
    intro s h
    exact ⟨h, rfl, List.suffix_refl _⟩
  | cons e evs ih =>
    intro s h
    obtain ⟨h1, h2, h3⟩ := Sys.step_closing s e h
    obtain ⟨k1, k2, k3⟩ := ih (s.step e) h1
    have hrun : s.run (e :: evs) = (s.step e).run evs := rfl
    rw [hrun]
    refine ⟨k1, ?_, k3.trans h3⟩
    rw [k2, h2]

/-- A call of Close in a state that satisfies the invariant of the close channel leaves more
tokens in the channel than there are tasks in their loop. -/
theorem Sys.callClose_closing (s : Sys) (d : Option String) (h : s.closeInv) :
    (s.step (Event.callClose d)).live < (s.step (Event.callClose d)).p.close.length := by
  have h3 := s.live_le
  by_cases hc : s.p.close = []
  · have e : (s.step (Event.callClose d)) =
        { s with p := { s.p with close := [0, 1, 2, 1], wsClosed := s.p.wsClosed + 1,
                                 dbClosed := s.p.dbClosed + 1,
                                 connPool := sweepFrom 0 s.p.connPool,
                                 sweeps := s.p.sweeps + 1 } } := by
      simp only [Sys.step]
      rw [Close_fst_of_running d s.p hc]
    rw [e]
    show s.live < 4
    omega
  · have e : (s.step (Event.callClose d)) = { s with p := s.p } := by
      simp only [Sys.step]
      rw [Close_of_closing d s.p hc]
    rw [e]
    rcases h with h | h
    · exact absurd h hc
    · exact h

/-- The invariant of the close channel holds after peer.init. -/
theorem Sys.closeInv_init (exited : Task → Bool) :
    Sys.closeInv { p := peer.init, exited := exited } := Or.inl rfl

/-- The invariant of the close channel is kept by every event. -/
theorem Sys.closeInv_step (s : Sys) (e : Event) (h : s.closeInv) : (s.step e).closeInv := by
  cases e with
  | callClose d => exact Or.inr (Sys.callClose_closing s d h)
  | loopHead t =>
    rcases h with h | h
    · left
      simp only [Sys.step]
      split
      · exact h
      · rw [h]
        exact h
    · exact Or.inr (Sys.step_closing s (Event.loopHead t) h).1

/-- The invariant of the close channel is kept by every sequence of events. -/
theorem Sys.closeInv_run (evs : List Event) :
    ∀ s : Sys, s.closeInv → (s.run evs).closeInv := by
  induction evs with
  | nil => exact fun s h => h
  | cons e evs ih => exact fun s h => ih (s.step e) (Sys.closeInv_step s e h)

/-- C3: in a state where the close channel is empty or holds more tokens than there are tasks
still in their loop (true after peer.init and kept by every event), after one call of Close
any sequence of further calls of Close and of tasks taking a token at the head of their loop
leaves the peer as the first call left it, except for the tokens taken: a further call
returns nil and changes nothing, so it pushes no token, closes neither the WebSocket nor
the database handle and does not sweep the session table. -/
theorem Close_idempotent (s : Sys) (h : s.closeInv) (d : Option String) (evs : List Event)
    (d2 : Option String) :
    ((s.step (Event.callClose d)).run evs).p.Close d2 =
        (((s.step (Event.callClose d)).run evs).p, none) ∧
    ((s.step (Event.callClose d)).run evs).p =
        { (s.step (Event.callClose d)).p with
            close := ((s.step (Event.callClose d)).run evs).p.close } ∧
    ((s.step (Event.callClose d)).run evs).p.close <:+ (s.step (Event.callClose d)).p.close ∧
    ((s.step (Event.callClose d)).run evs).p.wsClosed = (s.step (Event.callClose d)).p.wsClosed ∧
    ((s.step (Event.callClose d)).run evs).p.dbClosed = (s.step (Event.callClose d)).p.dbClosed ∧
    ((s.step (Event.callClose d)).run evs).p.sweeps = (s.step (Event.callClose d)).p.sweeps ∧
    ((s.step (Event.callClose d)).run evs).p.connPool =
        (s.step (Event.callClose d)).p.connPool := by
  obtain ⟨k1, k2, k3⟩ :=
    Sys.run_closing evs (s.step (Event.callClose d)) (Sys.callClose_closing s d h)
  have hne : ((s.step (Event.callClose d)).run evs).p.close ≠ [] := by
    intro h0
    rw [h0] at k1
    exact Nat.not_lt_zero _ k1
  refine ⟨Close_of_closing d2 _ hne, k2, k3, ?_, ?_, ?_, ?_⟩
  · rw [k2]
  · rw [k2]
  · rw [k2]
  · rw [k2]

/-- Witness of C3: from the state made by peer.init, Close is called four times in all while
the three tasks leave their loops. -/
theorem Close_idempotent_witness :
    freshSys.closeInv ∧
    ((freshSys.step (Event.callClose none)).run shutdownEvents).p.wsClosed =
      (freshSys.step (Event.callClose none)).p.wsClosed ∧
    ((freshSys.step (Event.callClose none)).run shutdownEvents).p.sweeps =
      (freshSys.step (Event.callClose none)).p.sweeps :=
  ⟨Or.inl rfl,
    (Close_idempotent freshSys (Or.inl rfl) none shutdownEvents none).2.2.2.1,
    (Close_idempotent freshSys (Or.inl rfl) none shutdownEvents none).2.2.2.2.2.1⟩

/-! ## The send scheduler -/

/-- C1, as stated, fails: on a peer with two control frames and a data frame pending on
which Close has just been called, the pending signal is available and the control queue is
non-empty, yet one pass of processQueue takes a shutdown token and writes nothing. -/
theorem processQueue_control_priority_fails_when_closing :
    ¬ (∀ (wsErr : Bool) (dbErr : Option String) (p : peer) (c : Frame) (cs : List Frame),
        0 < p.hasMessage → p.controlQueue = c :: cs →
        (p.processQueueIter wsErr dbErr).1.wsWritten = p.wsWritten ++ [c] ∧
        (p.processQueueIter wsErr dbErr).1.messageQueue = p.messageQueue) := by
  intro h
  have hs : closingBusyPeer =
      { busyPeer with close := [0, 1, 2, 1], wsClosed := busyPeer.wsClosed + 1,
                      dbClosed := busyPeer.dbClosed + 1,
                      connPool := sweepFrom 0 busyPeer.connPool,
                      sweeps := busyPeer.sweeps + 1 } :=
    Close_fst_of_running none busyPeer rfl
  have h1 := (h false none closingBusyPeer (Frame.close 4660) [Frame.close 22136] ?_ ?_).1
  · rw [hs] at h1
    simp [busyPeer, peer.init, peer.processQueueIter] at h1
  · rw [hs]
    decide
  · rw [hs]
    rfl

/-- C1, amended: with no shutdown token in the close channel, an available pending signal
and a non-empty control queue, one pass of processQueue writes the head of the control queue
to the WebSocket and leaves the data queue unchanged: it takes one pending signal and the
head of the control queue, calls WritePreparedMessage on that frame and goes on to the next
pass, or, when the call fails, runs Close and returns. With a shutdown token pending, the
pass takes one token and returns without writing; nothing else changes. In every state, a
pass writes nothing, or the head of the control queue, or, only when there is no shutdown
token, a pending signal and an empty control queue, the head of the data queue; so the data
queue is untouched whenever a control frame is pending. -/
theorem processQueue_control_priority (wsErr : Bool) (dbErr : Option String) (p : peer) :
    (∀ (c : Frame) (cs : List Frame), p.close = [] → 0 < p.hasMessage →
      p.controlQueue = c :: cs →
        (p.processQueueIter wsErr dbErr).1.wsWritten = p.wsWritten ++ [c] ∧
        (p.processQueueIter wsErr dbErr).1.controlQueue = cs ∧
        (p.processQueueIter wsErr dbErr).1.messageQueue = p.messageQueue ∧
        (p.processQueueIter wsErr dbErr).1.hasMessage = p.hasMessage - 1 ∧
        p.processQueueIter wsErr dbErr =
          (if wsErr then
            ((peer.Close dbErr { p with hasMessage := p.hasMessage - 1, controlQueue := cs,
                                        wsWritten := p.wsWritten ++ [c] }).1,
              LoopStep.returned)
          else
            ({ p with hasMessage := p.hasMessage - 1, controlQueue := cs,
                      wsWritten := p.wsWritten ++ [c] }, LoopStep.next))) ∧
    (((p.processQueueIter wsErr dbErr).1.wsWritten = p.wsWritten ∧
        (p.processQueueIter wsErr dbErr).1.controlQueue = p.controlQueue ∧
        (p.processQueueIter wsErr dbErr).1.messageQueue = p.messageQueue) ∨
      (p.close = [] ∧ 0 < p.hasMessage ∧ ∃ c cs, p.controlQueue = c :: cs ∧
        (p.processQueueIter wsErr dbErr).1.wsWritten = p.wsWritten ++ [c] ∧
        (p.processQueueIter wsErr dbErr).1.controlQueue = cs ∧
        (p.processQueueIter wsErr dbErr).1.messageQueue = p.messageQueue) ∨
      (p.close = [] ∧ 0 < p.hasMessage ∧ p.controlQueue = [] ∧
        ∃ m ms, p.messageQueue = m :: ms ∧
        (p.processQueueIter wsErr dbErr).1.wsWritten = p.wsWritten ++ [m] ∧
        (p.processQueueIter wsErr dbErr).1.messageQueue = ms ∧
        (p.processQueueIter wsErr dbErr).1.controlQueue = [])) ∧
    (p.controlQueue ≠ [] →
      (p.processQueueIter wsErr dbErr).1.messageQueue = p.messageQueue) ∧
    (∀ (t : Nat) (rest : List Nat), p.close = t :: rest →
      p.processQueueIter wsErr dbErr = ({ p with close := rest }, LoopStep.returned)) := by
  obtain ⟨cq, mq, sig, cl, ws, wc, dc, sw, lw, fw, lc, pool⟩ := p
  cases cl with
  | cons t rest => simp [peer.processQueueIter]
  | nil =>
    cases sig with
    | zero => simp [peer.processQueueIter]
    | succ n =>
      cases cq with
      | cons c cs =>
        cases wsErr
        · simp [peer.processQueueIter]
        · simp only [peer.processQueueIter, if_true]
          obtain ⟨h1, h2, h3, h4⟩ := Close_queues dbErr
            { connPool := pool, controlQueue := cs, messageQueue := mq, hasMessage := n,
              close := [], wsWritten := ws ++ [c], wsClosed := wc, dbClosed := dc,
              sweeps := sw, localWritten := lw, forwarders := fw, localClosed := lc }
          simp only [h1, h2, h3, h4]
          simp
      | nil =>
        cases mq with
        | nil => simp [peer.processQueueIter]
        | cons m ms =>
          cases wsErr
          · simp [peer.processQueueIter]
          · simp only [peer.processQueueIter, if_true]
            obtain ⟨h1, h2, h3, -⟩ := Close_queues dbErr
              { connPool := pool, controlQueue := [], messageQueue := ms, hasMessage := n,
                close := [], wsWritten := ws ++ [m], wsClosed := wc, dbClosed := dc,
                sweeps := sw, localWritten := lw, forwarders := fw, localClosed := lc }
            simp only [h1, h2, h3]
            simp

/-- Witness of C1 amended: a running peer with two control frames and one data frame
pending, and the same peer with shutdown tokens left in the close channel. -/
theorem processQueue_control_priority_witness :
    busyPeer.close = [] ∧ 0 < busyPeer.hasMessage ∧
    busyPeer.controlQueue = [Frame.close 4660, Frame.close 22136] ∧
    (busyPeer.processQueueIter false none).1.wsWritten = [Frame.close 4660] ∧
    (busyPeer.processQueueIter false none).1.controlQueue = [Frame.close 22136] ∧
    (busyPeer.processQueueIter false none).1.messageQueue = [Frame.data 4661 [1]] ∧
    (busyPeer.processQueueIter false none).2 = LoopStep.next ∧
    drainingBusyPeer.close = [2, 1] ∧ drainingBusyPeer.controlQueue ≠ [] ∧
    (drainingBusyPeer.processQueueIter false none).1.close = [1] ∧
    (drainingBusyPeer.processQueueIter false none).1.wsWritten = [] ∧
    (drainingBusyPeer.processQueueIter false none).2 = LoopStep.returned ∧
    (drainingBusyPeer.processQueueIter false none).1.messageQueue =
      drainingBusyPeer.messageQueue :=
  ⟨rfl, by decide, rfl,
    ((processQueue_control_priority false none busyPeer).1 (Frame.close 4660)
      [Frame.close 22136] rfl (by decide) rfl).1,
    ((processQueue_control_priority false none busyPeer).1 (Frame.close 4660)
      [Frame.close 22136] rfl (by decide) rfl).2.1,
    ((processQueue_control_priority false none busyPeer).1 (Frame.close 4660)
      [Frame.close 22136] rfl (by decide) rfl).2.2.1,
    congrArg Prod.snd ((processQueue_control_priority false none busyPeer).1
      (Frame.close 4660) [Frame.close 22136] rfl (by decide) rfl).2.2.2.2,
    rfl, by decide,
    congrArg (fun r => r.1.close)
      ((processQueue_control_priority false none drainingBusyPeer).2.2.2 2 [1] rfl),
    congrArg (fun r => r.1.wsWritten)
      ((processQueue_control_priority false none drainingBusyPeer).2.2.2 2 [1] rfl),
    congrArg Prod.snd
      ((processQueue_control_priority false none drainingBusyPeer).2.2.2 2 [1] rfl),
    (processQueue_control_priority false none drainingBusyPeer).2.2.1 (by decide)⟩

/-! ## Queue capacities -/

/-- C10: with the operator rules of Go the capacities made by peer.init are 18 for the
control queue, 34 for the data queue and 52 for the pending signal, which is not 2 to the
power 32 plus 2 to the power 16; 52 is the sum of the other two, so a signal count equal to
the sum of the two queue lengths fits whenever both queues are within capacity. -/
theorem queue_capacities :
    controlQueueCap = 18 ∧ messageQueueCap = 34 ∧ hasMessageCap = 52 ∧
    hasMessageCap ≠ 2 ^ 32 + 2 ^ 16 ∧
    hasMessageCap = controlQueueCap + messageQueueCap ∧
    ∀ p : peer, p.controlQueue.length ≤ controlQueueCap →
      p.messageQueue.length ≤ messageQueueCap →
      p.hasMessage = p.controlQueue.length + p.messageQueue.length →
      p.hasMessage ≤ hasMessageCap := by
  have h1 : controlQueueCap = 18 := by decide
  have h2 : messageQueueCap = 34 := by decide
  have h3 : hasMessageCap = 52 := by decide
  refine ⟨h1, h2, h3, ?_, ?_, ?_⟩
  · rw [h3]; norm_num
  · rw [h1, h2, h3]
  · intro p hc hm hs
    rw [h1] at hc
    rw [h2] at hm
    rw [h3, hs]
    omega

/-- Witness of C10, at a running peer with two control frames and one data frame pending. -/
theorem queue_capacities_witness :
    busyPeer.controlQueue.length ≤ controlQueueCap ∧
    busyPeer.messageQueue.length ≤ messageQueueCap ∧
    busyPeer.hasMessage = busyPeer.controlQueue.length + busyPeer.messageQueue.length ∧
    busyPeer.hasMessage ≤ hasMessageCap :=
  ⟨by decide, by decide, rfl,
    queue_capacities.2.2.2.2.2 busyPeer (by decide) (by decide) rfl⟩

/-! ## The uplink reader -/

theorem goSliceTo_two {α : Type} (b0 b1 : α) (rest : List α) :
    goSliceTo (b0 :: b1 :: rest) 2 = .ok [b0, b1] := by
  simp [goSliceTo, goSlice]
  omega

theorem goSliceFrom_two {α : Type} (b0 b1 : α) (rest : List α) :
    goSliceFrom (b0 :: b1 :: rest) 2 = .ok rest := by
  have h : ((rest.length : Int) + 1 + 1 - 2).toNat = rest.length := by omega
  simp [goSliceFrom, goSlice, h]
  omega

/-- A message whose prefix has a close_sent marker is dropped, whatever the prefix is. -/
theorem handleWsReadClient_of_closeSent (writeErr : Bool) (p : peer) (b0 b1 : Byte)
    (payload : List Byte) (h : p.connPool.isCloseSent (b0.val * 256 + b1.val) = true) :
    handleWsReadClient writeErr p (b0 :: b1 :: payload) = .ok p := by
  simp only [handleWsReadClient, goSliceTo_two, bigEndianUint16, bind, Except.bind, pure,
    Except.pure]
  simp [h]

/-- A message with a data prefix that has no close_sent marker goes to peer.receive. -/
theorem handleWsReadClient_of_data (writeErr : Bool) (p : peer) (b0 b1 : Byte)
    (payload : List Byte) (h : p.connPool.isCloseSent (b0.val * 256 + b1.val) = false)
    (h0 : b0.val * 256 + b1.val ≠ 0) (h1 : b0.val * 256 + b1.val ≠ 1)
    (h3 : b0.val * 256 + b1.val ≠ 3) (h4 : b0.val * 256 + b1.val ≠ 4) :
    handleWsReadClient writeErr p (b0 :: b1 :: payload) =
      .ok (p.receive writeErr (b0.val * 256 + b1.val) payload) := by
  simp only [handleWsReadClient, goSliceTo_two, goSliceFrom_two, bigEndianUint16, bind,
    Except.bind, pure, Except.pure]
  simp [h, h0, h1, h3, h4, ATYPIPv4, ATYPDomain, ATYPIPv6]

/-- C2: a message whose prefix s is a data prefix with close_sent(s) leaves the whole peer
state as it was: nothing is written to a local socket, no frame is queued, and the session
table and its markers are unchanged. When the session is absent and close_sent(s) is false,
one CLOSE frame for s is added to the control queue, the data queue is unchanged and nothing
is written to a local socket. -/
theorem handleWsReadClient_closed_session (writeErr : Bool) (p : peer) (b0 b1 : Byte)
    (payload : List Byte)
    (h0 : b0.val * 256 + b1.val ≠ 0) (h1 : b0.val * 256 + b1.val ≠ 1)
    (h3 : b0.val * 256 + b1.val ≠ 3) (h4 : b0.val * 256 + b1.val ≠ 4) :
    (p.connPool.isCloseSent (b0.val * 256 + b1.val) = true →
      handleWsReadClient writeErr p (b0 :: b1 :: payload) = .ok p) ∧
    (p.connPool.get (b0.val * 256 + b1.val) = none →
      p.connPool.isCloseSent (b0.val * 256 + b1.val) = false →
      ∃ r, handleWsReadClient writeErr p (b0 :: b1 :: payload) = .ok r ∧
        r.controlQueue = p.controlQueue ++ [Frame.close (b0.val * 256 + b1.val)] ∧
        r.messageQueue = p.messageQueue ∧ r.wsWritten = p.wsWritten ∧
        r.localWritten = p.localWritten) := by
  constructor
  · intro h
    exact handleWsReadClient_of_closeSent writeErr p b0 b1 payload h
  · intro hget hcs
    refine ⟨_, handleWsReadClient_of_data writeErr p b0 b1 payload hcs h0 h1 h3 h4, ?_⟩
    simp [peer.receive, hget, hcs, writeClose]

/-- Witness of C2: DATA for session 4660, once with the close_sent marker set and once on a
fresh table. -/
theorem handleWsReadClient_closed_session_witness :
    closedSessionPeer.connPool.isCloseSent 4660 = true ∧
    handleWsReadClient false closedSessionPeer [18, 52, 1, 2] = .ok closedSessionPeer ∧
    peer.init.connPool.get 4660 = none ∧ peer.init.connPool.isCloseSent 4660 = false ∧
    ∃ r, handleWsReadClient false peer.init [18, 52, 1, 2] = .ok r ∧
      r.controlQueue = [Frame.close 4660] ∧ r.messageQueue = [] ∧ r.wsWritten = [] ∧
      r.localWritten = [] :=
  ⟨rfl,
    (handleWsReadClient_closed_session false closedSessionPeer 18 52 [1, 2]
      (by decide) (by decide) (by decide) (by decide)).1 rfl,
    rfl, rfl,
    (handleWsReadClient_closed_session false peer.init 18 52 [1, 2]
      (by decide) (by decide) (by decide) (by decide)).2 rfl rfl⟩

/-- C5, at the failing input: after an inbound DELETE whose payload session id is 0, an
inbound DELETE for the session 4660 that is in the table is dropped, so the session stays
in the table without a close_sent marker; after an inbound DELETE whose payload session id
is 1, a CONNECT REPLY with prefix 1 for that session is dropped too and nothing reaches
the local socket. -/
theorem handleWsReadClient_opcode_dropped_after_marker :
    (∃ p1, handleWsReadClient false activeSessionPeer [0, 0, 0, 0] = .ok p1 ∧
      p1.connPool.isCloseSent 0 = true ∧
      handleWsReadClient false p1 [0, 0, 18, 52] = .ok p1 ∧
      p1.connPool.get 4660 = some 7 ∧ p1.connPool.isCloseSent 4660 = false) ∧
    (∃ p2, handleWsReadClient false activeSessionPeer [0, 0, 0, 1] = .ok p2 ∧
      p2.connPool.isCloseSent 1 = true ∧
      handleWsReadClient false p2 [0, 1, 18, 52, 0, 0, 80, 127, 0, 0, 1] = .ok p2 ∧
      p2.connPool.get 4660 = some 7 ∧ p2.localWritten = []) :=
  ⟨⟨activeSessionPeer.delete 0, rfl, rfl, rfl, rfl, rfl⟩,
   ⟨activeSessionPeer.delete 1, rfl, rfl, rfl, rfl, rfl⟩⟩

/-- After peer.delete the session has no record. -/
theorem peer_delete_get (p : peer) (s : Nat) : (p.delete s).connPool.get s = none := by
  cases hg : p.connPool.conns s with
  | none => simp [peer.delete, connectionPool.get, connectionPool.setCloseSent, hg]
  | some c =>
    simp [peer.delete, connectionPool.get, connectionPool.setCloseSent,
      connectionPool.delete, hg]

/-- After peer.delete the session is marked, and the queues are as before. -/
theorem peer_delete_effect (p : peer) (s : Nat) :
    (p.delete s).connPool.isCloseSent s = true ∧
    (p.delete s).controlQueue = p.controlQueue ∧
    (p.delete s).messageQueue = p.messageQueue := by
  cases hg : p.connPool.conns s with
  | none =>
    simp [peer.delete, connectionPool.get, connectionPool.setCloseSent,
      connectionPool.isCloseSent, hg]
  | some c =>
    simp [peer.delete, connectionPool.get, connectionPool.setCloseSent,
      connectionPool.isCloseSent, connectionPool.delete, hg]

/-- With no marker on the prefix, an inbound DELETE for a session in the table removes the
session and marks it. -/
theorem handleWsReadClient_delete (writeErr : Bool) (p : peer) (s0 s1 : Byte)
    (rest : List Byte) (h : p.connPool.isCloseSent 0 = false) :
    ∃ r, handleWsReadClient writeErr p (0 :: 0 :: s0 :: s1 :: rest) = .ok r ∧
      r.connPool.get (s0.val * 256 + s1.val) = none ∧
      r.connPool.isCloseSent (s0.val * 256 + s1.val) = true ∧
      r.controlQueue = p.controlQueue ∧ r.messageQueue = p.messageQueue := by
  refine ⟨p.delete (s0.val * 256 + s1.val), ?_, ?_, ?_, ?_, ?_⟩
  · simp only [handleWsReadClient, goSliceTo_two, goSliceFrom_two, bigEndianUint16, bind,
      Except.bind, pure, Except.pure]
    simp [h]
  · exact peer_delete_get p _
  · exact (peer_delete_effect p _).1
  · exact (peer_delete_effect p _).2.1
  · exact (peer_delete_effect p _).2.2

/-- C7, at the failing inputs: a message of fewer than two bytes makes the handler panic in
every state, and on a fresh table so do a DELETE frame of three bytes and CONNECT REPLY
frames of four and of six bytes. -/
theorem handleWsReadClient_short_message_panics :
    (∀ (writeErr : Bool) (p : peer), handleWsReadClient writeErr p [] = .error .sliceBounds) ∧
    (∀ (writeErr : Bool) (p : peer) (b : Byte),
      handleWsReadClient writeErr p [b] = .error .sliceBounds) ∧
    handleWsReadClient false peer.init [0, 0, 7] = .error .indexRange ∧
    handleWsReadClient false peer.init [0, 1, 18, 52] = .error .indexRange ∧
    handleWsReadClient false peer.init [0, 1, 18, 52, 0, 0] = .error .sliceBounds :=
  ⟨fun _ _ => rfl, fun _ _ _ => rfl, rfl, rfl, rfl⟩

/-! ## The SOCKS5 acceptor -/

/-- The loop over the offered methods finds out whether method NONE is among them. -/
theorem methods_fold (methods : List Byte) (g : Bool) :
    methods.foldl (fun g m => if m = MethodNone then true else g) g =
      (g || decide (MethodNone ∈ methods)) := by
  induction methods generalizing g with
  | nil => simp
  | cons m ms ih =>
    rw [List.foldl_cons, ih]
    by_cases hm : m = MethodNone
    · simp [hm]
    · have hm2 : ¬ MethodNone = m := fun h => hm h.symm
      simp [hm, hm2]

/-- The function serveSocks5 touches neither the session table, nor the list of forwarders,
nor the list of closed connections, and when it fails it has queued no frame. -/
theorem serveSocks5_frame (env : Socks5Env) (p : peer) (conn : Conn) (session : Nat) :
    (serveSocks5 env p conn session).1.connPool = p.connPool ∧
    (serveSocks5 env p conn session).1.forwarders = p.forwarders ∧
    (serveSocks5 env p conn session).1.localClosed = p.localClosed ∧
    (serveSocks5 env p conn session).1.close = p.close ∧
    ((serveSocks5 env p conn session).2 ≠ none →
      (serveSocks5 env p conn session).1.controlQueue = p.controlQueue) := by
  unfold serveSocks5
  cases env.negotiationRequest with
  | error e => simp
  | ok methods =>
    simp only []
    generalize methods.foldl (fun g m => if m = MethodNone then true else g) false = got
    cases got with
    | false => simp
    | true =>
      cases env.negotiationReplyErr with
      | some e => simp
      | none =>
        cases env.request with
        | error e => simp
        | ok req =>
          by_cases hc : req.cmd = CmdConnect
          · cases hce : env.connectErr with
            | some e => simp [hc, writeConnect]
            | none => simp [hc, writeConnect]
          · simp [hc]

/-- When the negotiation and the request succeed, serveSocks5 queues the CONNECT frame of
the session and returns no error. -/
theorem serveSocks5_ok (env : Socks5Env) (p : peer) (conn : Conn) (session : Nat)
    (methods : List Byte) (req : Socks5Request)
    (hneg : env.negotiationRequest = .ok methods) (hnone : MethodNone ∈ methods)
    (hreply : env.negotiationReplyErr = none) (hreq : env.request = .ok req)
    (hcmd : req.cmd = CmdConnect) (hconn : env.connectErr = none) :
    (serveSocks5 env p conn session).2 = none ∧
    (serveSocks5 env p conn session).1.controlQueue =
      p.controlQueue ++ [Frame.connect req.atyp session req.dstAddr req.dstPort] := by
  have hg : methods.foldl (fun g m => if m = MethodNone then true else g) false = true := by
    rw [methods_fold]
    simp [hnone]
  simp only [serveSocks5, hneg, hg, hreply, hreq, hcmd, hconn, writeConnect]
  simp

/-- C6, as stated, fails: a connection accepted from remote port 1 whose negotiation
succeeds is not refused; session 1 is registered, its CONNECT frame is queued and its
forwarder is started. -/
theorem listenSocks_accepts_reserved_port :
    (listenSocksIter (.ok { conn := 9, remotePort := 1 }) goodSocks5Env none
      peer.init).1.connPool.get 1 = some 9 ∧
    (listenSocksIter (.ok { conn := 9, remotePort := 1 }) goodSocks5Env none
      peer.init).1.forwarders = [1] ∧
    (listenSocksIter (.ok { conn := 9, remotePort := 1 }) goodSocks5Env none
      peer.init).1.controlQueue = [Frame.connect 1 1 [93, 184, 216, 34] [0, 80]] ∧
    (listenSocksIter (.ok { conn := 9, remotePort := 1 }) goodSocks5Env none
      peer.init).1.localClosed = [] :=
  ⟨rfl, rfl, rfl, rfl⟩

/-- C6, amended: for a connection accepted while no shutdown token is pending, with remote
TCP port reduced to the 16-bit value p, the acceptor makes no check of p against the
reserved values. When the local client offers method NONE and sends a CONNECT request and
no I/O fails, it queues a CONNECT frame for session p, registers p in the session table and
starts a forwarder for p, for every p; when serveSocks5 fails it closes the connection,
queues no frame, registers nothing and starts no forwarder. -/
theorem listenSocks_registers_every_port (a : Accepted) (env : Socks5Env)
    (dbErr : Option String) (p : peer) (hclose : p.close = []) :
    toUint16 a.remotePort < 65536 ∧
    (∀ (methods : List Byte) (req : Socks5Request),
      env.negotiationRequest = .ok methods → MethodNone ∈ methods →
      env.negotiationReplyErr = none → env.request = .ok req → req.cmd = CmdConnect →
      env.connectErr = none →
        (listenSocksIter (.ok a) env dbErr p).1.connPool.get (toUint16 a.remotePort) =
          some a.conn ∧
        (listenSocksIter (.ok a) env dbErr p).1.forwarders =
          p.forwarders ++ [toUint16 a.remotePort] ∧
        (listenSocksIter (.ok a) env dbErr p).1.controlQueue =
          p.controlQueue ++
            [Frame.connect req.atyp (toUint16 a.remotePort) req.dstAddr req.dstPort] ∧
        (listenSocksIter (.ok a) env dbErr p).1.localClosed = p.localClosed) ∧
    ((serveSocks5 env p a.conn (toUint16 a.remotePort)).2 ≠ none →
        (listenSocksIter (.ok a) env dbErr p).1.connPool = p.connPool ∧
        (listenSocksIter (.ok a) env dbErr p).1.forwarders = p.forwarders ∧
        (listenSocksIter (.ok a) env dbErr p).1.controlQueue = p.controlQueue ∧
        (listenSocksIter (.ok a) env dbErr p).1.localClosed = p.localClosed ++ [a.conn]) := by
  obtain ⟨f1, f2, f3, -, f5⟩ := serveSocks5_frame env p a.conn (toUint16 a.remotePort)
  have hiter : listenSocksIter (.ok a) env dbErr p =
      match serveSocks5 env p a.conn (toUint16 a.remotePort) with
      | (p1, some _) => ({ p1 with localClosed := p1.localClosed ++ [a.conn] }, .next)
      | (p1, none) =>
        ({ p1 with connPool := p1.connPool.set (toUint16 a.remotePort) a.conn,
                   forwarders := p1.forwarders ++ [toUint16 a.remotePort] }, .next) := by
    simp [listenSocksIter, hclose]
  refine ⟨?_, ?_, ?_⟩
  · unfold toUint16
    omega
  · intro methods req hneg hnone hreply hreq hcmd hconn
    obtain ⟨k1, k2⟩ := serveSocks5_ok env p a.conn (toUint16 a.remotePort) methods req
      hneg hnone hreply hreq hcmd hconn
    rw [hiter]
    cases hr : serveSocks5 env p a.conn (toUint16 a.remotePort) with
    | mk p1 err =>
      rw [hr] at f1 f2 f3 k1 k2
      simp only at f1 f2 f3 k1 k2
      subst k1
      simp [connectionPool.get, connectionPool.set, f2, f3, k2]
  · intro hfail
    have f6 := f5 hfail
    rw [hiter]
    cases hr : serveSocks5 env p a.conn (toUint16 a.remotePort) with
    | mk p1 err =>
      rw [hr] at f1 f2 f3 f6 hfail
      simp only at f1 f2 f3 f6 hfail
      cases err with
      | none => exact absurd rfl hfail
      | some e => simp [f1, f2, f3, f6]

/-- Witness of C6 amended: a connection from remote port 4 whose negotiation succeeds. -/
theorem listenSocks_registers_every_port_witness :
    peer.init.close = [] ∧ goodSocks5Env.negotiationRequest = .ok [MethodNone] ∧
    (listenSocksIter (.ok { conn := 9, remotePort := 4 }) goodSocks5Env none
      peer.init).1.connPool.get (toUint16 4) = some 9 ∧
    (listenSocksIter (.ok { conn := 9, remotePort := 4 }) goodSocks5Env none
      peer.init).1.forwarders = peer.init.forwarders ++ [toUint16 4] :=
  ⟨rfl, rfl,
    ((listenSocks_registers_every_port { conn := 9, remotePort := 4 } goodSocks5Env none
      peer.init rfl).2.1 [MethodNone]
      { cmd := CmdConnect, atyp := 1, dstAddr := [93, 184, 216, 34], dstPort := [0, 80] }
      rfl (by decide) rfl rfl rfl rfl).1,
    ((listenSocks_registers_every_port { conn := 9, remotePort := 4 } goodSocks5Env none
      peer.init rfl).2.1 [MethodNone]
      { cmd := CmdConnect, atyp := 1, dstAddr := [93, 184, 216, 34], dstPort := [0, 80] }
      rfl (by decide) rfl rfl rfl rfl).2.1⟩

/-! ## Server configuration -/

/-- The conversion to uint16 gives a 16-bit value, the value itself when it is in range. -/
theorem toUint16_spec (x : Int) :
    toUint16 x < 65536 ∧ (0 ≤ x → x ≤ 65535 → (toUint16 x : Int) = x) := by
  unfold toUint16
  constructor
  · omega
  · intro h0 h1
    omega

/-- Whatever Init returns has the port of the configuration converted to uint16. -/
theorem Init_ok_port {U F : Type} (urlParse : String → Except String U)
    (osStat : String → Except String F) (st : serverTOML) (sg : serverGo U F)
    (h : st.Init urlParse osStat = .ok sg) : sg.Port = toUint16 st.Port := by
  unfold serverTOML.Init at h
  cases hu : urlParse st.Pretend with
  | error e => simp [hu] at h
  | ok u =>
    cases hs : st.Secure with
    | false =>
      simp [hu, hs] at h
      rw [← h]
    | true =>
      cases hc : osStat st.CertFile with
      | error e => simp [hu, hs, hc] at h
      | ok c =>
        cases hk : osStat st.KeyFile with
        | error e => simp [hu, hs, hc, hk] at h
        | ok k =>
          simp [hu, hs, hc, hk] at h
          rw [← h]

/-- Whether Init fails, and with which error, does not depend on the port. -/
theorem Init_error_port {U F : Type} (urlParse : String → Except String U)
    (osStat : String → Except String F) (st : serverTOML) (q : Int) (e : String) :
    st.Init urlParse osStat = .error e ↔
      ({ st with Port := q } : serverTOML).Init urlParse osStat = .error e := by
  unfold serverTOML.Init
  cases hu : urlParse st.Pretend with
  | error e1 => simp
  | ok u =>
    cases hs : st.Secure with
    | false => simp
    | true =>
      cases hc : osStat st.CertFile with
      | error e1 => simp
      | ok c =>
        cases hk : osStat st.KeyFile with
        | error e1 => simp
        | ok k => simp

/-- C8, as stated, fails: with a pretend URL that parses and a plain listener, Init accepts
the ports 65536, 70000 and -1 and returns a serverGo with port 0, 4464 and 65535. -/
theorem Init_accepts_port_out_of_range :
    (∃ sg, (plainServerTOML 65536).Init acceptAll acceptAll = .ok sg ∧ sg.Port = 0) ∧
    (∃ sg, (plainServerTOML 70000).Init acceptAll acceptAll = .ok sg ∧ sg.Port = 4464) ∧
    (∃ sg, (plainServerTOML (-1)).Init acceptAll acceptAll = .ok sg ∧ sg.Port = 65535) :=
  ⟨⟨_, rfl, rfl⟩, ⟨_, rfl, rfl⟩, ⟨_, rfl, rfl⟩⟩

/-- C8, amended: Init makes no range check on the port. Whether it returns an error, and
which, depends only on the other fields; when the pretend URL parses and, for a secure
listener, both files exist, it returns a serverGo; and the port of every serverGo it
returns is the configured port converted to uint16, that is reduced modulo 65536, which is
the configured port itself for every port from 0 to 65535. -/
theorem Init_port {U F : Type} (urlParse : String → Except String U)
    (osStat : String → Except String F) (st : serverTOML) :
    (∀ (q : Int) (e : String), st.Init urlParse osStat = .error e ↔
      ({ st with Port := q } : serverTOML).Init urlParse osStat = .error e) ∧
    (∀ u, urlParse st.Pretend = .ok u →
      (st.Secure = true → ∃ c k, osStat st.CertFile = .ok c ∧ osStat st.KeyFile = .ok k) →
      ∃ sg, st.Init urlParse osStat = .ok sg) ∧
    (∀ sg, st.Init urlParse osStat = .ok sg →
      (sg.Port : Int) = st.Port % 65536 ∧
      (0 ≤ st.Port → st.Port ≤ 65535 → (sg.Port : Int) = st.Port)) := by
  refine ⟨fun q e => Init_error_port urlParse osStat st q e, ?_, ?_⟩
  · intro u hu hsec
    unfold serverTOML.Init
    cases hs : st.Secure with
    | false => simp [hu, hs]
    | true =>
      obtain ⟨c, k, hc, hk⟩ := hsec hs
      simp [hu, hs, hc, hk]
  · intro sg h
    rw [Init_ok_port urlParse osStat st sg h]
    refine ⟨?_, (toUint16_spec st.Port).2⟩
    unfold toUint16
    omega

/-- Witness of C8 amended: a plain listener on port 8080. -/
theorem Init_port_witness :
    (0 : Int) ≤ 8080 ∧ (8080 : Int) ≤ 65535 ∧
    ∃ sg, (plainServerTOML 8080).Init acceptAll acceptAll = .ok sg ∧ (sg.Port : Int) = 8080 :=
  ⟨by decide, by decide,
    ⟨{ Port := 8080, Pretend := some "https://example.com", Secure := false,
       CertFile := none, KeyFile := none }, rfl,
     ((Init_port acceptAll acceptAll (plainServerTOML 8080)).2.2
        { Port := 8080, Pretend := some "https://example.com", Secure := false,
          CertFile := none, KeyFile := none } rfl).2 (by decide) (by decide)⟩⟩

/-! ## ESNI key fetch -/

/-- Cutting the first and the last byte off a string of at least two bytes. -/
theorem goSlice_trim {α : Type} (q1 q2 : α) (s : List α) :
    goSlice (q1 :: (s ++ [q2])) 1 (((q1 :: (s ++ [q2])).length : Int) - 1) = .ok s := by
  have h1 : ((s.length : Int) + 1 + 1 - 1 - 1).toNat = s.length := by omega
  simp [goSlice, h1]

/-- When the DATA of the first answer is a string between two one-byte quote characters,
the string alone is decoded and the result parsed; a failure of either is the error. -/
theorem getESNIKey_quoted {K : Type} (decode : List Byte → Except String (List Byte))
    (parseKeys : List Byte → Except String K) (q1 q2 : Byte) (s : List Byte)
    (rest : List DoHAnswer) :
    getESNIKey (.ok ({ Data := q1 :: (s ++ [q2]) } :: rest)) decode parseKeys =
      .ok (match decode s with
        | .error e => .error e
        | .ok esniRecord => parseKeys esniRecord) := by
  simp only [getESNIKey, goIndex, List.get?, goSlice_trim, bind, Except.bind, pure,
    Except.pure]
  cases decode s with
  | error e => rfl
  | ok r =>
    simp only []
    cases parseKeys r with
    | error e => rfl
    | ok k => rfl

/-- C9, at the failing inputs: a DoH response without answers makes getESNIKey panic on the
index of the first answer, and a first answer whose DATA has no or one byte makes it panic
on the slice that trims the quote characters; no error is returned to the caller. -/
theorem getESNIKey_panics {K : Type} (decode : List Byte → Except String (List Byte))
    (parseKeys : List Byte → Except String K) :
    getESNIKey (.ok []) decode parseKeys = .error .indexRange ∧
    (∀ rest, getESNIKey (.ok ({ Data := [] } :: rest)) decode parseKeys =
      .error .sliceBounds) ∧
    (∀ c rest, getESNIKey (.ok ({ Data := [c] } :: rest)) decode parseKeys =
      .error .sliceBounds) :=
  ⟨rfl, fun _ => rfl, fun _ _ => rfl⟩

end Relaybaton
